import Mathlib

/-
Verification of the variant-driven Button component
(src/src/components/button/button.tsx) of the
tailwind-multistyle-components repository.

The component maps four enumerated variant props plus two boolean state
flags to precomputed Tailwind class fragments, merges those fragments with
conflict resolution, and renders a single button element with all
unrecognized attributes forwarded.
-/

set_option maxRecDepth 10000

namespace TailwindButton

/-- Tone prop enumeration, from `ButtonProps` in button.tsx. -/
inductive Tone where
  | default
  | danger
  | warning
  | success
deriving DecidableEq, Fintype

/-- Impact prop enumeration, from `ButtonProps` in button.tsx. -/
inductive Impact where
  | bold
  | light
  | bordered
deriving DecidableEq, Fintype

/-- Shape prop enumeration, from `ButtonProps` in button.tsx. -/
inductive Shape where
  | rounded
  | pill
  | square
deriving DecidableEq, Fintype

/-- Size prop enumeration, from `ButtonProps` in button.tsx. -/
inductive Size where
  | sm
  | md
  | lg
deriving DecidableEq, Fintype

/-- Value of an HTML attribute passed to the component. String and boolean
values cover the attributes the component inspects (`className`,
`disabled`); `other` stands for any other attribute value (handlers,
ARIA values, ...), which the component only forwards. -/
inductive AttrValue where
  | str (s : String)
  | bool (b : Bool)
  | other (n : Nat)
deriving DecidableEq

/-- Rendered virtual-DOM node. `spinner` is the loading-indicator: the
separate LoadingSpinner component is not part of the sources under
verification and the spec treats it as an opaque presentational child, so
it is one opaque leaf here. -/
inductive Node where
  | text (s : String)
  | spinner
  | elem (tag : String) (attrs : List (String × AttrValue)) (children : List Node)

/-- Modelled from the spec: the externally-defined loading-indicator
component, "treated as an opaque child component with no contract beyond
renders some indicator". -/
def LoadingSpinner : Node := Node.spinner

/-- Attributes of a rendered element node. -/
def Node.attrsOf : Node → List (String × AttrValue)
  | Node.elem _ a _ => a
  | _ => []

/-- Children of a rendered element node. -/
def Node.childrenOf : Node → List Node
  | Node.elem _ _ c => c
  | _ => []

/-- Whether a node is the loading-indicator leaf. -/
def Node.isSpinner : Node → Bool
  | Node.spinner => true
  | _ => false

/-- Split a character list at a separator character, accumulating the
current chunk in reverse. -/
def splitOnCharAux (sep : Char) : List Char → List Char → List String
  | [], acc => [String.mk acc.reverse]
  | c :: cs, acc =>
    if c = sep then String.mk acc.reverse :: splitOnCharAux sep cs []
    else splitOnCharAux sep cs (c :: acc)

/-- Split a string at every occurrence of a separator character. -/
def splitOnChar (sep : Char) (s : String) : List String :=
  splitOnCharAux sep s.data []

/-- Split a class string into its whitespace-separated class tokens. -/
def splitClasses (s : String) : List String :=
  (splitOnChar ' ' s).filter (fun t => t != "")

/-- Whether the first character list is an initial segment of the second. -/
def prefChars : List Char → List Char → Bool
  | [], _ => true
  | _ :: _, [] => false
  | a :: as, b :: bs => a == b && prefChars as bs

/-- Whether string `p` is an initial segment of string `s`. -/
def strBegins (p s : String) : Bool := prefChars p.data s.data

/-- Modelled from the spec: the rule table "mapping each style token to the
property it controls" used by the class merger (tailwind-merge is an
external dependency, not part of the sources; the spec describes its
resolution rule in section 4.2). Returns the style property controlled by
a bare (modifier-free) utility class, or `none` for classes the table does
not know, which then never conflict. -/
def utilityGroup (s : String) : Option String :=
  if s = "outline" || s = "outline-none" then some "outline-style"
  else if s = "outline-0" || s = "outline-1" || s = "outline-2" || s = "outline-4" || s = "outline-8" then some "outline-width"
  else if strBegins "outline-" s then some "outline-color"
  else if s = "ring" || s = "ring-0" || s = "ring-1" || s = "ring-2" || s = "ring-4" || s = "ring-8" then some "ring-width"
  else if strBegins "ring-offset-" s then some "ring-offset-width"
  else if strBegins "ring-" s then some "ring-color"
  else if strBegins "cursor-" s then some "cursor"
  else if strBegins "bg-" s then some "background-color"
  else if s = "text-xs" || s = "text-sm" || s = "text-base" || s = "text-lg" || s = "text-xl" || s = "text-2xl" || s = "text-3xl" then some "font-size"
  else if strBegins "text-" s then some "text-color"
  else if strBegins "px-" s then some "padding-x"
  else if strBegins "py-" s then some "padding-y"
  else if strBegins "p-" s then some "padding"
  else if s = "rounded" || strBegins "rounded-" s then some "border-radius"
  else if strBegins "translate-y-" s then some "translate-y"
  else if s = "flex" || s = "block" || s = "inline-flex" || s = "grid" || s = "hidden" then some "display"
  else if strBegins "gap-" s then some "gap"
  else if strBegins "items-" s then some "align-items"
  else if strBegins "justify-" s then some "justify-content"
  else if strBegins "font-" s then some "font-weight"
  else none

/-- Conflict key of a full class token: its list of variant modifiers
(`hover`, `disabled`, ...) paired with the style property of the final
utility. Two tokens conflict exactly when their keys are equal and known.
Tokens under different modifiers never conflict. -/
def classGroup (tok : String) : Option (List String × String) :=
  let parts := splitOnChar ':' tok
  match utilityGroup ((parts.getLast?).getD "") with
  | some g => some (parts.dropLast, g)
  | none => none

/-- Whether an earlier class token is overridden by (conflicts with) a
later one: same token repeated, or both tokens control the same style
property under the same modifiers. -/
def conflictsWith (u t : String) : Bool :=
  decide (u = t) || ((classGroup u).isSome && decide (classGroup u = classGroup t))

/-- One step of the left-to-right merge fold: the incoming token removes
every earlier token it conflicts with and is appended. -/
def applyToken (acc : List String) (t : String) : List String :=
  acc.filter (fun u => !(conflictsWith u t)) ++ [t]

/-- Merge a token sequence with later-wins conflict resolution. -/
def mergeTokens (ts : List String) : List String :=
  ts.foldl applyToken []

/-- Class tokens of a merge-argument list; absent (falsy) arguments are
skipped, present ones contribute their tokens in order. -/
def tokensOfArgs : List (Option String) → List String
  | [] => []
  | none :: rest => tokensOfArgs rest
  | some s :: rest => splitClasses s ++ tokensOfArgs rest

/-- Modelled from the spec: the `twMerge` function of the external
tailwind-merge package, per spec section 4.2: "takes an ordered sequence
of style fragments (strings), some of which may be absent", groups class
names "by the underlying style property they control", and "when two
fragments in the sequence set the same property, the fragment appearing
later in the sequence wins and the earlier conflicting class is dropped";
non-conflicting classes are concatenated. -/
def twMerge (args : List (Option String)) : String :=
  String.intercalate " " (mergeTokens (tokensOfArgs args))

/-- The `baseClasses` constant of button.tsx, verbatim. -/
def baseClasses : String :=
  "font-semibold focus-visible:outline-none focus-visible:ring-2 focus-visible:ring-offset-2 disabled:hover:cursor-not-allowed disabled:bg-gray-300 disabled:text-gray-400 active:translate-y-px disabled:active:translate-y-0"

/-- The `toneClasses` nested lookup object of button.tsx, embedded as the
list of its entries (one outer entry per tone, one inner entry per
impact), verbatim. -/
def toneClasses : List (Tone × List (Impact × String)) :=
  [(Tone.default,
    [(Impact.bold, "bg-sky-500 text-white hover:bg-sky-600 focus-visible:ring-sky-500"),
     (Impact.light, "bg-sky-200 text-sky-900 hover:bg-sky-300 focus-visible:ring-sky-500"),
     (Impact.bordered, "outline outline-2 outline-sky-500 hover:bg-sky-200 focus-visible:ring-sky-500 dark:text-white dark:hover:text-black")]),
   (Tone.danger,
    [(Impact.bold, "bg-rose-400 hover:bg-rose-500 focus-visible:ring-rose-500"),
     (Impact.light, "bg-rose-200 text-rose-900 hover:bg-rose-300 focus-visible:ring-rose-500"),
     (Impact.bordered, "outline outline-2 outline-rose-500 hover:bg-rose-200 focus-visible:ring-rose-500 dark:text-white dark:hover:text-black")]),
   (Tone.warning,
    [(Impact.bold, "bg-amber-400 hover:bg-amber-500 focus-visible:ring-amber-500"),
     (Impact.light, "bg-amber-200 text-amber-900 hover:bg-amber-300 focus-visible:ring-amber-500"),
     (Impact.bordered, "outline outline-2 outline-amber-500 hover:bg-amber-200 focus-visible:ring-amber-500 dark:text-white dark:hover:text-black")]),
   (Tone.success,
    [(Impact.bold, "bg-green-400 hover:bg-green-500 focus-visible:ring-green-500"),
     (Impact.light, "bg-green-200 text-green-900 hover:bg-green-300 focus-visible:ring-green-500"),
     (Impact.bordered, "outline outline-2 outline-green-500 hover:bg-green-200 focus-visible:ring-green-500 dark:text-white dark:hover:text-black")])]

/-- The `shapeClasses` lookup object of button.tsx as its entry list. -/
def shapeClasses : List (Shape × String) :=
  [(Shape.square, "rounded-none"),
   (Shape.rounded, "rounded"),
   (Shape.pill, "rounded-full")]

/-- The `sizeClasses` lookup object of button.tsx as its entry list. -/
def sizeClasses : List (Size × String) :=
  [(Size.sm, "p-2 text-sm"),
   (Size.md, "px-4 py-3 text-base"),
   (Size.lg, "px-8 py-4 text-lg")]

/-- The `loadingClasses` constant of button.tsx, verbatim. -/
def loadingClasses : String :=
  "flex gap-2 items-center justify-between cursor-progress"

/-- The `disabledClasses` constant of button.tsx, verbatim. -/
def disabledClasses : String := "cursor-not-allowed"

/-- The nested lookup `toneClasses[tone][impact]`, as an Option. -/
def toneLookupOpt (t : Tone) (i : Impact) : Option String :=
  match toneClasses.lookup t with
  | some inner => inner.lookup i
  | none => none

/-- The lookup `toneClasses[tone][impact]`; in the source this indexing is
total by typing. -/
def toneLookup (t : Tone) (i : Impact) : String :=
  (toneLookupOpt t i).getD ""

/-- The lookup `shapeClasses[shape]`. -/
def shapeLookup (s : Shape) : String :=
  (shapeClasses.lookup s).getD ""

/-- The lookup `sizeClasses[size]`. -/
def sizeLookup (z : Size) : String :=
  (sizeClasses.lookup z).getD ""

/-- The flattened entries of the nested tone times impact table. -/
def pairEntries : List (Tone × List (Impact × String)) → List ((Tone × Impact) × String)
  | [] => []
  | (t, inner) :: rest => inner.map (fun f => ((t, f.1), f.2)) ++ pairEntries rest

/-- Props of the Button component: the optional variant fields of
`ButtonProps`, the children, and `restProps`, the remaining
`React.ComponentProps` button attributes (`className`, `disabled`, event
handlers, ...), as destructured in button.tsx. -/
structure ButtonProps where
  tone : Option Tone
  impact : Option Impact
  shape : Option Shape
  size : Option Size
  isLoading : Option Bool
  children : List Node
  restProps : List (String × AttrValue)

/-- Default-applied tone, from the destructuring `tone = "default"`. -/
def toneVal (p : ButtonProps) : Tone := p.tone.getD Tone.default

/-- Default-applied impact, from the destructuring `impact = "bold"`. -/
def impactVal (p : ButtonProps) : Impact := p.impact.getD Impact.bold

/-- Default-applied shape, from the destructuring `shape = "rounded"`. -/
def shapeVal (p : ButtonProps) : Shape := p.shape.getD Shape.rounded

/-- Default-applied size, from the destructuring `size = "md"`. -/
def sizeVal (p : ButtonProps) : Size := p.size.getD Size.md

/-- Default-applied isLoading, from the destructuring `isLoading = false`. -/
def loadingVal (p : ButtonProps) : Bool := p.isLoading.getD false

/-- The `className` extracted from restProps by
`const { className, ...rest } = restProps`. -/
def callerClassName (p : ButtonProps) : Option String :=
  match p.restProps.lookup "className" with
  | some (AttrValue.str s) => some s
  | _ => none

/-- The `rest` object of `const { className, ...rest } = restProps`:
every restProps attribute except `className`. -/
def restAfterClassName (p : ButtonProps) : List (String × AttrValue) :=
  p.restProps.filter (fun kv => kv.1 != "className")

/-- Truthiness of `rest.disabled` as used in
`rest.disabled && disabledClasses`. -/
def restDisabled (p : ButtonProps) : Bool :=
  match (restAfterClassName p).lookup "disabled" with
  | some (AttrValue.bool b) => b
  | _ => false

/-- The first six arguments of the `twMerge` call in button.tsx: base,
shape, size, tone times impact, then the two conditional state fragments
(`rest.disabled && disabledClasses`, `isLoading && loadingClasses`, which
are falsy and hence absent when the flag is off). -/
def internalArgs (p : ButtonProps) : List (Option String) :=
  [some baseClasses,
   some (shapeLookup (shapeVal p)),
   some (sizeLookup (sizeVal p)),
   some (toneLookup (toneVal p) (impactVal p)),
   if restDisabled p = true then some disabledClasses else none,
   if loadingVal p = true then some loadingClasses else none]

/-- The full argument list of the `twMerge` call: the six internal
fragments followed by the caller-supplied `className`. -/
def fragmentArgs (p : ButtonProps) : List (Option String) :=
  internalArgs p ++ [callerClassName p]

/-- The merged class tokens of the rendered button. -/
def buttonClassTokens (p : ButtonProps) : List String :=
  mergeTokens (tokensOfArgs (fragmentArgs p))

/-- The class tokens contributed by the caller-supplied className. -/
def cnTokens (p : ButtonProps) : List String :=
  match callerClassName p with
  | some s => splitClasses s
  | none => []

/-- The Button component of button.tsx: renders one button element whose
className is the twMerge of the fragments, whose other attributes are the
forwarded `rest`, and whose children are the supplied children followed by
a LoadingSpinner when isLoading. -/
def Button (p : ButtonProps) : Node :=
  Node.elem "button"
    (("className", AttrValue.str (twMerge (fragmentArgs p))) :: restAfterClassName p)
    (p.children ++ (if loadingVal p = true then [LoadingSpinner] else []))

/-- First attribute value stored under a key on a rendered node. -/
def lookupAttr (k : String) (n : Node) : Option AttrValue :=
  (Node.attrsOf n).lookup k

/-- Replace the isLoading prop, keeping every other prop. -/
def setIsLoading (p : ButtonProps) (b : Bool) : ButtonProps :=
  ⟨p.tone, p.impact, p.shape, p.size, some b, p.children, p.restProps⟩

/-- The explicitly destructured prop names that are never part of
restProps. -/
def explicitNames : List String :=
  ["tone", "impact", "shape", "size", "isLoading"]

/-- Membership in the merge fold, with an arbitrary accumulator: a token is
in the result exactly when it occurs in the input with no later conflicting
token, or was already accumulated and conflicts with nothing in the input. -/
theorem mem_foldl_applyToken (t : String) :
    ∀ (ts acc : List String),
      t ∈ ts.foldl applyToken acc ↔
        ((∃ l r, ts = l ++ t :: r ∧ ∀ u ∈ r, conflictsWith t u = false) ∨
         (t ∈ acc ∧ ∀ u ∈ ts, conflictsWith t u = false)) := by
  intro ts
  induction ts with
  | nil =>
    intro acc
    constructor
    · intro h
      exact Or.inr ⟨h, fun u hu => absurd hu (List.not_mem_nil u)⟩
    · rintro (⟨l, r, hl, _⟩ | ⟨h, _⟩)
      · exact absurd hl (by simp)
      · exact h
  | cons v ts ih =>
    intro acc
    rw [List.foldl_cons, ih (applyToken acc v)]
    constructor
    · rintro (⟨l, r, hsplit, hclean⟩ | ⟨hmem, hall⟩)
      · exact Or.inl ⟨v :: l, r, by rw [hsplit]; rfl, hclean⟩
      · rcases List.mem_append.mp hmem with hf | hv
        · have hm := List.mem_filter.mp hf
          have hcf : conflictsWith t v = false := by simpa using hm.2
          refine Or.inr ⟨hm.1, ?_⟩
          intro u hu
          rcases List.mem_cons.mp hu with rfl | hu2
          · exact hcf
          · exact hall u hu2
        · have hv2 : t = v := by simpa using hv
          subst hv2
          exact Or.inl ⟨[], ts, rfl, hall⟩
    · rintro (⟨l, r, hsplit, hclean⟩ | ⟨hacc, hall⟩)
      · cases l with
        | nil =>
          rcases (by simpa using hsplit : v = t ∧ ts = r) with ⟨rfl, rfl⟩
          refine Or.inr ⟨?_, hclean⟩
          exact List.mem_append.mpr (Or.inr (by simp))
        | cons x l2 =>
          rcases (by simpa using hsplit : v = x ∧ ts = l2 ++ t :: r) with ⟨rfl, h2⟩
          exact Or.inl ⟨l2, r, h2, hclean⟩
      · have hcv : conflictsWith t v = false := hall v (by simp)
        refine Or.inr ⟨?_, fun u hu => hall u (by simp [hu])⟩
        exact List.mem_append.mpr (Or.inl (List.mem_filter.mpr ⟨hacc, by simp [hcv]⟩))

/-- Membership in the merged token list: a token survives exactly when some
occurrence of it has no later conflicting token. -/
theorem mem_mergeTokens_iff (t : String) (ts : List String) :
    t ∈ mergeTokens ts ↔
      ∃ l r, ts = l ++ t :: r ∧ ∀ u ∈ r, conflictsWith t u = false := by
  unfold mergeTokens
  rw [mem_foldl_applyToken]
  simp

/-- A token with an occurrence whose suffix is conflict-free survives the
merge. -/
theorem mem_mergeTokens_of_split {t : String} {ts l r : List String}
    (h : ts = l ++ t :: r) (hr : ∀ u ∈ r, conflictsWith t u = false) :
    t ∈ mergeTokens ts :=
  (mem_mergeTokens_iff t ts).mpr ⟨l, r, h, hr⟩

/-- A token each of whose occurrences is followed by a conflicting token is
dropped by the merge. -/
theorem not_mem_mergeTokens {t : String} {ts : List String}
    (H : ∀ l r, ts = l ++ t :: r → ∃ u ∈ r, conflictsWith t u = true) :
    t ∉ mergeTokens ts := by
  intro hmem
  rcases (mem_mergeTokens_iff t ts).mp hmem with ⟨l, r, h, hr⟩
  rcases H l r h with ⟨u, hu, hc⟩
  rw [hr u hu] at hc
  cases hc

/-- A list with a unique marked occurrence splits at it in only one way. -/
theorem unique_split {α : Type} {a : α} :
    ∀ (I M l r : List α), a ∉ I → a ∉ M → I ++ a :: M = l ++ a :: r →
      I = l ∧ M = r := by
  intro I
  induction I with
  | nil =>
    intro M l r _ hM h
    cases l with
    | nil =>
      refine ⟨rfl, ?_⟩
      simpa using h
    | cons x l2 =>
      exfalso
      rcases (by simpa using h : a = x ∧ M = l2 ++ a :: r) with ⟨_, h2⟩
      exact hM (h2 ▸ List.mem_append.mpr (Or.inr (by simp)))
  | cons y I2 ih =>
    intro M l r hI hM h
    cases l with
    | nil =>
      exfalso
      rcases (by simpa using h : y = a ∧ I2 ++ a :: M = r) with ⟨h1, _⟩
      exact hI (by simp [h1])
    | cons x l2 =>
      rcases (by simpa using h : y = x ∧ I2 ++ a :: M = l2 ++ a :: r) with ⟨rfl, h2⟩
      have h3 := ih M l2 r (fun hm => hI (by simp [hm])) hM h2
      exact ⟨by rw [h3.1], h3.2⟩

/-- When an occurrence of `t` inside `A ++ B` lies in `A`, the tail of the
split retains all of `B` as a suffix. -/
theorem suffix_of_split {α : Type} {t : α} :
    ∀ (A : List α) {B l r : List α}, A ++ B = l ++ t :: r → t ∉ B →
      ∃ m, r = m ++ B := by
  intro A
  induction A with
  | nil =>
    intro B l r h hB
    exfalso
    rw [List.nil_append] at h
    exact hB (h ▸ List.mem_append.mpr (Or.inr (by simp)))
  | cons x A2 ih =>
    intro B l r h hB
    cases l with
    | nil =>
      rcases (by simpa using h : x = t ∧ A2 ++ B = r) with ⟨_, h2⟩
      exact ⟨A2, h2.symm⟩
    | cons y l2 =>
      rcases (by simpa using h : x = y ∧ A2 ++ B = l2 ++ t :: r) with ⟨_, h2⟩
      exact ih h2 hB

/-- Token extraction distributes over argument-list concatenation. -/
theorem tokensOfArgs_append (A B : List (Option String)) :
    tokensOfArgs (A ++ B) = tokensOfArgs A ++ tokensOfArgs B := by
  induction A with
  | nil => rfl
  | cons a A ih => cases a <;> simp [tokensOfArgs, ih, List.append_assoc]

/-- The merged button tokens split into the six internal fragments followed
by the caller className tokens. -/
theorem buttonClassTokens_decomp (p : ButtonProps) :
    buttonClassTokens p =
      mergeTokens (tokensOfArgs (internalArgs p) ++ cnTokens p) := by
  unfold buttonClassTokens fragmentArgs cnTokens
  rw [tokensOfArgs_append]
  cases h : callerClassName p <;> simp [tokensOfArgs, h]

/-- The internal fragment tokens, spelled out per fragment. -/
theorem internal_decomp (p : ButtonProps) :
    tokensOfArgs (internalArgs p) =
      splitClasses baseClasses ++ splitClasses (shapeLookup (shapeVal p)) ++
        splitClasses (sizeLookup (sizeVal p)) ++
        splitClasses (toneLookup (toneVal p) (impactVal p)) ++
        (if restDisabled p = true then splitClasses disabledClasses else []) ++
        (if loadingVal p = true then splitClasses loadingClasses else []) := by
  unfold internalArgs
  cases hd : restDisabled p <;> cases hl : loadingVal p <;>
    simp [tokensOfArgs, List.append_assoc]

/-- Lookup of a key other than className is unaffected by removing the
className entries. -/
theorem lookup_filter_away (k : String) (hk : (k == "className") = false) :
    ∀ ps : List (String × AttrValue),
      (ps.filter (fun kv => kv.1 != "className")).lookup k = ps.lookup k := by
  intro ps
  induction ps with
  | nil => rfl
  | cons kv rest ih =>
    rcases kv with ⟨k1, v1⟩
    by_cases hb : k1 = "className"
    · subst hb
      simp [List.filter_cons, List.lookup, hk, ih]
    · have hp : (k1 != "className") = true := by simpa using hb
      simp [List.filter_cons, hp, List.lookup, ih]

/-- Claim C1: for every prop assignment, the rendered button's computed
class attribute equals the merge of exactly these fragments in exactly this
order: base, shape-table fragment, size-table fragment, tone times impact
fragment, the disabled fragment iff disabled is truthy, the loading
fragment iff isLoading, and finally the caller-supplied className; the
merge runs on this full sequence with the caller override appended last. -/
theorem claim_c1 (p : ButtonProps) :
    lookupAttr "className" (Button p) =
      some (AttrValue.str (twMerge (
        [some baseClasses, some (shapeLookup (shapeVal p)), some (sizeLookup (sizeVal p)),
         some (toneLookup (toneVal p) (impactVal p))] ++
        (if restDisabled p = true then [some disabledClasses] else []) ++
        (if loadingVal p = true then [some loadingClasses] else []) ++
        (callerClassName p).toList.map some))) := by
  have h1 : lookupAttr "className" (Button p) =
      some (AttrValue.str (twMerge (fragmentArgs p))) := rfl
  rw [h1]
  unfold twMerge
  refine congrArg (fun ts => some (AttrValue.str (String.intercalate " " (mergeTokens ts)))) ?_
  unfold fragmentArgs internalArgs
  cases restDisabled p <;> cases loadingVal p <;> cases callerClassName p <;>
    simp [tokensOfArgs, tokensOfArgs_append, List.append_assoc]

/-- Claim C2: a caller-supplied class that conflicts (same modifier list
and style property) with a default fragment token wins: the caller class
(provided it is not itself overridden later inside the className) appears
in the merged token list and the conflicting default token is dropped. -/
theorem claim_c2 (p : ButtonProps) (cn : String) (hcn : callerClassName p = some cn)
    (c d : String) (l r : List String)
    (hsplit : splitClasses cn = l ++ c :: r)
    (hlast : ∀ u ∈ r, conflictsWith c u = false)
    (_hd : d ∈ tokensOfArgs (internalArgs p))
    (hg : (classGroup d).isSome = true) (hgc : classGroup d = classGroup c)
    (hne : d ≠ c) :
    c ∈ buttonClassTokens p ∧ d ∉ buttonClassTokens p := by
  have hcnt : cnTokens p = l ++ c :: r := by simp [cnTokens, hcn, hsplit]
  have hdc : conflictsWith d c = true := by
    simp only [conflictsWith, Bool.or_eq_true, Bool.and_eq_true, decide_eq_true_eq]
    exact Or.inr ⟨hg, hgc⟩
  have hcd : conflictsWith c d = true := by
    simp only [conflictsWith, Bool.or_eq_true, Bool.and_eq_true, decide_eq_true_eq]
    refine Or.inr ⟨?_, hgc.symm⟩
    rw [← hgc]
    exact hg
  constructor
  · rw [buttonClassTokens_decomp]
    refine mem_mergeTokens_of_split
      (l := tokensOfArgs (internalArgs p) ++ l) (r := r) ?_ hlast
    rw [hcnt]
    simp [List.append_assoc]
  · rw [buttonClassTokens_decomp]
    apply not_mem_mergeTokens
    intro l2 r2 hsp
    have hnotin : d ∉ c :: r := by
      intro hmem
      rcases List.mem_cons.mp hmem with rfl | hmem2
      · exact hne rfl
      · have hf := hlast d hmem2
        rw [hf] at hcd
        cases hcd
    rw [hcnt] at hsp
    have hform : (tokensOfArgs (internalArgs p) ++ l) ++ (c :: r) = l2 ++ d :: r2 := by
      rw [← hsp]
      simp [List.append_assoc]
    rcases suffix_of_split _ hform hnotin with ⟨m, hm⟩
    refine ⟨c, ?_, hdc⟩
    rw [hm]
    exact List.mem_append.mpr (Or.inr (by simp))

/-- Witness for claim C2: a caller className of px-8 overrides the default
md-size padding px-4. -/
theorem claim_c2_witness :
    "px-8" ∈ buttonClassTokens
        ⟨none, none, none, none, none, [], [("className", AttrValue.str "px-8")]⟩ ∧
    "px-4" ∉ buttonClassTokens
        ⟨none, none, none, none, none, [], [("className", AttrValue.str "px-8")]⟩ :=
  claim_c2 ⟨none, none, none, none, none, [], [("className", AttrValue.str "px-8")]⟩
    "px-8" rfl "px-8" "px-4" [] [] rfl (by simp) (by decide) (by decide) (by decide)
    (by decide)

/-- Claim C3: with restProps restricted as by the source's typing (no
explicit variant field among them), every restProps attribute other than
className is forwarded verbatim to the rendered button element, the
explicit fields tone, impact, shape, size, isLoading never appear on it,
and disabled is in the forwarded set. -/
theorem claim_c3 (p : ButtonProps)
    (hx : ∀ kv ∈ p.restProps, kv.1 ∉ explicitNames) :
    (∃ cv, (Button p).attrsOf =
        ("className", cv) :: p.restProps.filter (fun kv => kv.1 != "className")) ∧
    (∀ kv ∈ p.restProps, kv.1 ≠ "className" → kv ∈ (Button p).attrsOf) ∧
    (∀ kv ∈ (Button p).attrsOf, kv.1 ∉ explicitNames) ∧
    (∀ v, ("disabled", v) ∈ p.restProps → ("disabled", v) ∈ (Button p).attrsOf) := by
  have hB : (Button p).attrsOf =
      ("className", AttrValue.str (twMerge (fragmentArgs p))) ::
        p.restProps.filter (fun kv => kv.1 != "className") := rfl
  rw [hB]
  refine ⟨⟨_, rfl⟩, ?_, ?_, ?_⟩
  · intro kv hkv hne
    refine List.mem_cons.mpr (Or.inr ?_)
    exact List.mem_filter.mpr ⟨hkv, by simpa using hne⟩
  · intro kv hkv
    rcases List.mem_cons.mp hkv with rfl | h2
    · show ("className" : String) ∉ explicitNames
      decide
    · exact hx kv (List.mem_filter.mp h2).1
  · intro v hv
    refine List.mem_cons.mpr (Or.inr ?_)
    refine List.mem_filter.mpr ⟨hv, ?_⟩
    show (("disabled" : String) != "className") = true
    decide

/-- Witness for claim C3: a disabled attribute is forwarded to the
rendered element. -/
theorem claim_c3_witness :
    ("disabled", AttrValue.bool true) ∈
      (Button ⟨none, none, none, none, none, [],
        [("disabled", AttrValue.bool true), ("type", AttrValue.str "submit")]⟩).attrsOf :=
  (claim_c3 ⟨none, none, none, none, none, [],
      [("disabled", AttrValue.bool true), ("type", AttrValue.str "submit")]⟩
    (by decide)).2.2.2 (AttrValue.bool true) (by decide)

/-- Claim C6: the rendered children are the supplied children followed by
exactly one loading-indicator when isLoading is true and by none when it is
false, and toggling isLoading leaves every forwarded attribute — in
particular disabled — unchanged. -/
theorem claim_c6 (p : ButtonProps) :
    ((Button p).childrenOf =
        p.children ++ (if loadingVal p = true then [LoadingSpinner] else [])) ∧
    (((Button p).childrenOf.filter Node.isSpinner).length =
        (p.children.filter Node.isSpinner).length +
          (if loadingVal p = true then 1 else 0)) ∧
    (∀ b : Bool,
        (Button (setIsLoading p b)).attrsOf.filter (fun kv => kv.1 != "className") =
          p.restProps.filter (fun kv => kv.1 != "className")) ∧
    (∀ b : Bool,
        lookupAttr "disabled" (Button (setIsLoading p b)) =
          p.restProps.lookup "disabled") := by
  refine ⟨rfl, ?_, ?_, ?_⟩
  · have h : (Button p).childrenOf =
        p.children ++ (if loadingVal p = true then [LoadingSpinner] else []) := rfl
    rw [h, List.filter_append, List.length_append]
    cases loadingVal p <;> simp [LoadingSpinner, Node.isSpinner]
  · intro b
    have hB : (Button (setIsLoading p b)).attrsOf =
        ("className", AttrValue.str (twMerge (fragmentArgs (setIsLoading p b)))) ::
          p.restProps.filter (fun kv => kv.1 != "className") := rfl
    rw [hB, List.filter_cons]
    simp only [bne_self_eq_false, Bool.false_eq_true, if_false]
    exact List.filter_eq_self.mpr (fun a ha => (List.mem_filter.mp ha).2)
  · intro b
    have hB : (Button (setIsLoading p b)).attrsOf =
        ("className", AttrValue.str (twMerge (fragmentArgs (setIsLoading p b)))) ::
          p.restProps.filter (fun kv => kv.1 != "className") := rfl
    unfold lookupAttr
    rw [hB]
    have hk : (("disabled" : String) == "className") = false := by decide
    simp only [List.lookup, hk]
    exact lookup_filter_away "disabled" hk p.restProps

/-- Claim C4: the static style-token tables are total over the
enumerations: the tone times impact table has exactly one entry for each of
the 12 pairs, the shape and size tables exactly one entry per key, and all
default-applied lookups succeed, so no runtime error path exists. -/
theorem claim_c4 :
    (∀ t : Tone, ∀ i : Impact,
        ((pairEntries toneClasses).filter (fun e => decide (e.1 = (t, i)))).length = 1) ∧
    (∀ s : Shape, (shapeClasses.filter (fun e => decide (e.1 = s))).length = 1) ∧
    (∀ z : Size, (sizeClasses.filter (fun e => decide (e.1 = z))).length = 1) ∧
    (∀ t : Tone, ∀ i : Impact, (toneLookupOpt t i).isSome = true) ∧
    (∀ s : Shape, (shapeClasses.lookup s).isSome = true) ∧
    (∀ z : Size, (sizeClasses.lookup z).isSome = true) := by
  decide

/-- Claim C5: invoking Button with none of the four variant props supplied
renders output identical to invoking it explicitly with tone=default,
impact=bold, shape=rounded, size=md, for every choice of the remaining
props and children. -/
theorem claim_c5 (il : Option Bool) (ch : List Node) (ats : List (String × AttrValue)) :
    Button ⟨none, none, none, none, il, ch, ats⟩ =
      Button ⟨some Tone.default, some Impact.bold, some Shape.rounded, some Size.md, il, ch, ats⟩ :=
  rfl

/-- Claim C8: every tone times impact table entry is a non-empty string and
no two distinct pairs map to the same string. -/
theorem claim_c8 :
    (∀ t : Tone, ∀ i : Impact, toneLookup t i ≠ "") ∧
    (∀ t t' : Tone, ∀ i i' : Impact,
        toneLookup t i = toneLookup t' i' → t = t' ∧ i = i') := by
  decide

/-- Witness for claim C8 at the default pair. -/
theorem claim_c8_witness :
    toneLookup Tone.default Impact.bold ≠ "" ∧
      (Tone.default = Tone.default ∧ Impact.bold = Impact.bold) :=
  ⟨claim_c8.1 Tone.default Impact.bold,
   claim_c8.2 Tone.default Tone.default Impact.bold Impact.bold rfl⟩

/-- Conflict-freedom is preserved by list concatenation. -/
theorem clean_append {m : String} {A B : List String}
    (hA : ∀ u ∈ A, conflictsWith m u = false)
    (hB : ∀ u ∈ B, conflictsWith m u = false) :
    ∀ u ∈ A ++ B, conflictsWith m u = false := by
  intro u hu
  rcases List.mem_append.mp hu with h | h
  exacts [hA u h, hB u h]

/-- Conflict-freedom holds over a conditionally included fragment. -/
theorem clean_ite {m : String} {b : Bool} {A : List String}
    (hA : ∀ u ∈ A, conflictsWith m u = false) :
    ∀ u ∈ (if b = true then A else []), conflictsWith m u = false := by
  cases b
  · intro u hu
    simp at hu
  · simpa using hA

/-- The disabled cursor token occurs in none of the base fragment tokens. -/
theorem cna_not_mem_base : "cursor-not-allowed" ∉ splitClasses baseClasses := by
  decide

/-- The disabled cursor token occurs in no shape fragment. -/
theorem cna_not_mem_shape :
    ∀ s : Shape, "cursor-not-allowed" ∉ splitClasses (shapeLookup s) := by
  decide

/-- The disabled cursor token occurs in no size fragment. -/
theorem cna_not_mem_size :
    ∀ z : Size, "cursor-not-allowed" ∉ splitClasses (sizeLookup z) := by
  decide

/-- The disabled cursor token occurs in no tone times impact fragment. -/
theorem cna_not_mem_tone :
    ∀ t : Tone, ∀ i : Impact, "cursor-not-allowed" ∉ splitClasses (toneLookup t i) := by
  decide

/-- The three muted base tokens conflict with no token of the shape, size,
tone, disabled or loading fragments. -/
theorem muted_clean_fragments :
    ∀ m ∈ ["disabled:bg-gray-300", "disabled:text-gray-400",
        "disabled:hover:cursor-not-allowed"],
      (∀ s : Shape, ∀ u ∈ splitClasses (shapeLookup s), conflictsWith m u = false) ∧
      (∀ z : Size, ∀ u ∈ splitClasses (sizeLookup z), conflictsWith m u = false) ∧
      (∀ t : Tone, ∀ i : Impact,
          ∀ u ∈ splitClasses (toneLookup t i), conflictsWith m u = false) ∧
      (∀ u ∈ splitClasses disabledClasses, conflictsWith m u = false) ∧
      (∀ u ∈ splitClasses loadingClasses, conflictsWith m u = false) := by
  decide

/-- A base-fragment token whose base suffix and all later fragments are
conflict-free for it survives every merge. -/
theorem muted_mem_buttonClassTokens (m : String) (p : ButtonProps)
    (l0 r0 : List String) (hbase : splitClasses baseClasses = l0 ++ m :: r0)
    (hr0 : ∀ u ∈ r0, conflictsWith m u = false)
    (hs : ∀ s : Shape, ∀ u ∈ splitClasses (shapeLookup s), conflictsWith m u = false)
    (hz : ∀ z : Size, ∀ u ∈ splitClasses (sizeLookup z), conflictsWith m u = false)
    (ht : ∀ t : Tone, ∀ i : Impact,
        ∀ u ∈ splitClasses (toneLookup t i), conflictsWith m u = false)
    (hdi : ∀ u ∈ splitClasses disabledClasses, conflictsWith m u = false)
    (hlo : ∀ u ∈ splitClasses loadingClasses, conflictsWith m u = false)
    (hcn : ∀ u ∈ cnTokens p, conflictsWith m u = false) :
    m ∈ buttonClassTokens p := by
  rw [buttonClassTokens_decomp, internal_decomp, hbase]
  refine mem_mergeTokens_of_split
    (l := l0)
    (r := r0 ++ splitClasses (shapeLookup (shapeVal p)) ++
      splitClasses (sizeLookup (sizeVal p)) ++
      splitClasses (toneLookup (toneVal p) (impactVal p)) ++
      (if restDisabled p = true then splitClasses disabledClasses else []) ++
      (if loadingVal p = true then splitClasses loadingClasses else []) ++ cnTokens p)
    ?_ ?_
  · simp [List.append_assoc]
  · exact clean_append (clean_append (clean_append (clean_append (clean_append
      (clean_append hr0 (hs _)) (hz _)) (ht _ _)) (clean_ite hdi)) (clean_ite hlo)) hcn

/-- Claim C9: when disabled and isLoading are both truthy and no caller
class touches the cursor property, the loading fragment is merged after the
disabled fragment, so cursor-progress is in the computed class tokens and
cursor-not-allowed is dropped as a conflicting earlier entry. -/
theorem claim_c9 (p : ButtonProps) (hd : restDisabled p = true) (hl : loadingVal p = true)
    (hcn : ∀ u ∈ cnTokens p, classGroup u ≠ classGroup "cursor-progress") :
    "cursor-progress" ∈ buttonClassTokens p ∧
      "cursor-not-allowed" ∉ buttonClassTokens p := by
  have hD : splitClasses disabledClasses = ["cursor-not-allowed"] := rfl
  have hL : splitClasses loadingClasses =
      ["flex", "gap-2", "items-center", "justify-between", "cursor-progress"] := rfl
  have hdecomp : tokensOfArgs (internalArgs p) ++ cnTokens p =
      (splitClasses baseClasses ++ splitClasses (shapeLookup (shapeVal p)) ++
        splitClasses (sizeLookup (sizeVal p)) ++
        splitClasses (toneLookup (toneVal p) (impactVal p))) ++
        "cursor-not-allowed" ::
          ("flex" :: "gap-2" :: "items-center" :: "justify-between" ::
            "cursor-progress" :: cnTokens p) := by
    rw [internal_decomp, hd, hl]
    simp [hD, hL, List.append_assoc]
  have hclean_cn : ∀ u ∈ cnTokens p, conflictsWith "cursor-progress" u = false := by
    intro u hu
    have hne := hcn u hu
    have hq1 : decide ("cursor-progress" = u) = false := by
      apply decide_eq_false
      intro he
      exact hne (by rw [← he])
    have hq2 : decide (classGroup "cursor-progress" = classGroup u) = false := by
      apply decide_eq_false
      intro he
      exact hne he.symm
    simp [conflictsWith, hq1, hq2]
  constructor
  · rw [buttonClassTokens_decomp, hdecomp]
    refine mem_mergeTokens_of_split
      (l := (splitClasses baseClasses ++ splitClasses (shapeLookup (shapeVal p)) ++
        splitClasses (sizeLookup (sizeVal p)) ++
        splitClasses (toneLookup (toneVal p) (impactVal p))) ++
        ["cursor-not-allowed", "flex", "gap-2", "items-center", "justify-between"])
      (r := cnTokens p) ?_ hclean_cn
    simp [List.append_assoc]
  · rw [buttonClassTokens_decomp, hdecomp]
    apply not_mem_mergeTokens
    intro l2 r2 hsp
    have hA : "cursor-not-allowed" ∉
        (splitClasses baseClasses ++ splitClasses (shapeLookup (shapeVal p)) ++
          splitClasses (sizeLookup (sizeVal p)) ++
          splitClasses (toneLookup (toneVal p) (impactVal p))) := by
      intro hmem
      simp only [List.mem_append] at hmem
      rcases hmem with ((h | h) | h) | h
      · exact cna_not_mem_base h
      · exact cna_not_mem_shape _ h
      · exact cna_not_mem_size _ h
      · exact cna_not_mem_tone _ _ h
    have hM : "cursor-not-allowed" ∉
        ("flex" :: "gap-2" :: "items-center" :: "justify-between" ::
          "cursor-progress" :: cnTokens p) := by
      intro hmem
      simp only [List.mem_cons] at hmem
      rcases hmem with h | h | h | h | h | h
      · exact absurd h (by decide)
      · exact absurd h (by decide)
      · exact absurd h (by decide)
      · exact absurd h (by decide)
      · exact absurd h (by decide)
      · exact hcn _ h (by decide)
    rcases unique_split _ _ l2 r2 hA hM hsp with ⟨_, hreq⟩
    refine ⟨"cursor-progress", ?_, by decide⟩
    rw [← hreq]
    exact List.mem_cons_of_mem _ (List.mem_cons_of_mem _ (List.mem_cons_of_mem _
      (List.mem_cons_of_mem _ (List.mem_cons_self _ _))))

/-- Witness for claim C9 at a disabled, loading button with no caller
className. -/
theorem claim_c9_witness :
    "cursor-progress" ∈ buttonClassTokens
        ⟨none, none, none, none, some true, [], [("disabled", AttrValue.bool true)]⟩ ∧
    "cursor-not-allowed" ∉ buttonClassTokens
        ⟨none, none, none, none, some true, [], [("disabled", AttrValue.bool true)]⟩ :=
  claim_c9 ⟨none, none, none, none, some true, [], [("disabled", AttrValue.bool true)]⟩
    rfl rfl (by decide)

/-- Counterexample to claim C7 as stated: with disabled truthy and
isLoading true, the native disabled attribute is present but the disabled
style fragment cursor-not-allowed is absent from the computed class tokens,
because the later loading fragment overrides it. -/
theorem claim_c7_counterexample :
    restDisabled ⟨none, none, none, none, some true, [],
        [("disabled", AttrValue.bool true)]⟩ = true ∧
    lookupAttr "disabled" (Button ⟨none, none, none, none, some true, [],
        [("disabled", AttrValue.bool true)]⟩) = some (AttrValue.bool true) ∧
    "cursor-not-allowed" ∉ buttonClassTokens ⟨none, none, none, none, some true, [],
        [("disabled", AttrValue.bool true)]⟩ := by
  decide

/-- Claim C7 (amended): when disabled is truthy, the native disabled
attribute is present on the rendered element; the disabled style fragment
cursor-not-allowed is additionally present in the computed class tokens
provided isLoading is false and no caller class conflicts with it. -/
theorem claim_c7_amended (p : ButtonProps)
    (hd : restDisabled p = true) (hl : loadingVal p = false)
    (hcn : ∀ u ∈ cnTokens p, conflictsWith "cursor-not-allowed" u = false) :
    lookupAttr "disabled" (Button p) = some (AttrValue.bool true) ∧
      "cursor-not-allowed" ∈ buttonClassTokens p := by
  constructor
  · have hk : (("disabled" : String) == "className") = false := by decide
    have hB : lookupAttr "disabled" (Button p) =
        (restAfterClassName p).lookup "disabled" := by
      unfold lookupAttr Button Node.attrsOf
      simp [List.lookup, hk]
    rw [hB]
    unfold restDisabled at hd
    rcases he : (restAfterClassName p).lookup "disabled" with _ | v
    · rw [he] at hd
      exact Bool.noConfusion hd
    · rw [he] at hd
      cases v with
      | str s => exact Bool.noConfusion hd
      | bool b =>
        have hb : b = true := hd
        rw [hb]
      | other n => exact Bool.noConfusion hd
  · have hD : splitClasses disabledClasses = ["cursor-not-allowed"] := rfl
    have hdecomp : tokensOfArgs (internalArgs p) ++ cnTokens p =
        (splitClasses baseClasses ++ splitClasses (shapeLookup (shapeVal p)) ++
          splitClasses (sizeLookup (sizeVal p)) ++
          splitClasses (toneLookup (toneVal p) (impactVal p))) ++
          "cursor-not-allowed" :: cnTokens p := by
      rw [internal_decomp, hd, hl]
      simp [hD, List.append_assoc]
    rw [buttonClassTokens_decomp, hdecomp]
    exact mem_mergeTokens_of_split rfl hcn

/-- Witness for claim C7 (amended) at a plain disabled button. -/
theorem claim_c7_witness :
    lookupAttr "disabled" (Button ⟨none, none, none, none, none, [],
        [("disabled", AttrValue.bool true)]⟩) = some (AttrValue.bool true) ∧
    "cursor-not-allowed" ∈ buttonClassTokens ⟨none, none, none, none, none, [],
        [("disabled", AttrValue.bool true)]⟩ :=
  claim_c7_amended ⟨none, none, none, none, none, [], [("disabled", AttrValue.bool true)]⟩
    rfl rfl (by decide)

/-- Counterexample to claim C10 as stated: a caller className whose class
conflicts with a muted base class removes that muted class from the
computed class string, so the muted classes are not present for every prop
assignment. -/
theorem claim_c10_counterexample :
    callerClassName ⟨none, none, none, none, none, [],
        [("className", AttrValue.str "disabled:bg-gray-400")]⟩ =
      some "disabled:bg-gray-400" ∧
    "disabled:bg-gray-300" ∈ splitClasses baseClasses ∧
    "disabled:bg-gray-300" ∉ buttonClassTokens ⟨none, none, none, none, none, [],
        [("className", AttrValue.str "disabled:bg-gray-400")]⟩ := by
  decide

/-- Claim C10 (amended): the base fragment, which contains the three muted
disabled-variant classes, is the first merge input, and the conditional
disabled fragment is only cursor-not-allowed; the muted classes are present
in every button's class tokens in which no caller-supplied class conflicts
with them (in particular whenever no className is supplied). -/
theorem claim_c10_amended (p : ButtonProps)
    (h1 : ∀ u ∈ cnTokens p, conflictsWith "disabled:bg-gray-300" u = false)
    (h2 : ∀ u ∈ cnTokens p, conflictsWith "disabled:text-gray-400" u = false)
    (h3 : ∀ u ∈ cnTokens p, conflictsWith "disabled:hover:cursor-not-allowed" u = false) :
    (fragmentArgs p).head? = some (some baseClasses) ∧
    disabledClasses = "cursor-not-allowed" ∧
    "disabled:bg-gray-300" ∈ splitClasses baseClasses ∧
    "disabled:text-gray-400" ∈ splitClasses baseClasses ∧
    "disabled:hover:cursor-not-allowed" ∈ splitClasses baseClasses ∧
    "disabled:bg-gray-300" ∈ buttonClassTokens p ∧
    "disabled:text-gray-400" ∈ buttonClassTokens p ∧
    "disabled:hover:cursor-not-allowed" ∈ buttonClassTokens p := by
  refine ⟨rfl, rfl, by decide, by decide, by decide, ?_, ?_, ?_⟩
  · have hm := muted_clean_fragments "disabled:bg-gray-300" (by decide)
    exact muted_mem_buttonClassTokens _ p
      ["font-semibold", "focus-visible:outline-none", "focus-visible:ring-2",
       "focus-visible:ring-offset-2", "disabled:hover:cursor-not-allowed"]
      ["disabled:text-gray-400", "active:translate-y-px", "disabled:active:translate-y-0"]
      rfl (by decide) hm.1 hm.2.1 hm.2.2.1 hm.2.2.2.1 hm.2.2.2.2 h1
  · have hm := muted_clean_fragments "disabled:text-gray-400" (by decide)
    exact muted_mem_buttonClassTokens _ p
      ["font-semibold", "focus-visible:outline-none", "focus-visible:ring-2",
       "focus-visible:ring-offset-2", "disabled:hover:cursor-not-allowed",
       "disabled:bg-gray-300"]
      ["active:translate-y-px", "disabled:active:translate-y-0"]
      rfl (by decide) hm.1 hm.2.1 hm.2.2.1 hm.2.2.2.1 hm.2.2.2.2 h2
  · have hm := muted_clean_fragments "disabled:hover:cursor-not-allowed" (by decide)
    exact muted_mem_buttonClassTokens _ p
      ["font-semibold", "focus-visible:outline-none", "focus-visible:ring-2",
       "focus-visible:ring-offset-2"]
      ["disabled:bg-gray-300", "disabled:text-gray-400", "active:translate-y-px",
       "disabled:active:translate-y-0"]
      rfl (by decide) hm.1 hm.2.1 hm.2.2.1 hm.2.2.2.1 hm.2.2.2.2 h3

/-- Witness for claim C10 (amended) at a button with no caller className. -/
theorem claim_c10_witness :
    "disabled:bg-gray-300" ∈ buttonClassTokens ⟨none, none, none, none, none, [], []⟩ ∧
    "disabled:text-gray-400" ∈ buttonClassTokens ⟨none, none, none, none, none, [], []⟩ ∧
    "disabled:hover:cursor-not-allowed" ∈
      buttonClassTokens ⟨none, none, none, none, none, [], []⟩ :=
  ⟨(claim_c10_amended ⟨none, none, none, none, none, [], []⟩
      (by decide) (by decide) (by decide)).2.2.2.2.2.1,
   (claim_c10_amended ⟨none, none, none, none, none, [], []⟩
      (by decide) (by decide) (by decide)).2.2.2.2.2.2.1,
   (claim_c10_amended ⟨none, none, none, none, none, [], []⟩
      (by decide) (by decide) (by decide)).2.2.2.2.2.2.2⟩

end TailwindButton
